import Mathlib

/-!
Verification of the imgable AI photo-processing service.

This file gives a shallow embedding, in Lean, of the queue protocol,
person clusterer, face embedder, face detector post-processing, date
parser and photo-update logic of the service (`src/ai/app`), and proves
or refutes the specification's claims about them.

Conventions of the embedding:
  * SQL timestamps (`NOW()`) are modelled by an explicit `now : Nat`
    logical clock passed to each operation.
  * Database tables are lists of row structures; an SQL `UPDATE ... WHERE
    photo_id = $1` is a `List.map` that rewrites the matching rows.
  * Python floats are modelled by `ℚ` where the code only adds, multiplies
    and compares, and by `ℝ` where the code takes square roots
    (`np.linalg.norm`).
  * Effectful inference calls (ONNX sessions, RapidOCR) are opaque: their
    results are parameters of the embedded functions.
-/

namespace Imgable

/-! ## Queue protocol (`src/ai/app/db/queries.py`) -/

/-- Lifecycle status of a row of the `ai_queue` table. -/
inductive QStatus where
  | pending
  | processing
  | done
  | error
deriving DecidableEq, Repr

/-- Row of the `ai_queue` table. -/
structure QueueRow where
  photo_id : String
  status : QStatus
  priority : Int
  created_at : Nat
  attempts : Nat
  started_at : Option Nat
  completed_at : Option Nat
  last_error : Option String
deriving DecidableEq, Repr

/-- Row of the `photos` table (the columns read by the AI service). -/
structure PhotoRow where
  id : String
  status : String
  small_width : Nat
  small_height : Nat
  taken_at : Option Nat
deriving DecidableEq, Repr

/-- SQL ordering `ORDER BY priority DESC, created_at ASC`: row `a` sorts
strictly before row `b`. -/
def betterRow (a b : QueueRow) : Bool :=
  decide (b.priority < a.priority) ||
    (a.priority == b.priority && decide (a.created_at < b.created_at))

/-- Fold selecting the best row under `betterRow`, starting from `r`. -/
def selectBest (r : QueueRow) (rs : List QueueRow) : QueueRow :=
  rs.foldl (fun best c => if betterRow c best then c else best) r

/-- The subquery `SELECT photo_id FROM ai_queue WHERE status = 'pending'
ORDER BY priority DESC, created_at ASC LIMIT 1`.  SQL leaves the order of
ties unspecified; this embedding resolves ties to the earlier row. -/
def selectNextPending (q : List QueueRow) : Option String :=
  match q.filter (fun r => r.status == .pending) with
  | [] => none
  | r :: rs => some (selectBest r rs).photo_id

/-- An `UPDATE ai_queue ... WHERE photo_id = $1` applied to the table. -/
def applyToRow (pid : String) (f : QueueRow → QueueRow) (q : List QueueRow) :
    List QueueRow :=
  q.map fun r => if r.photo_id = pid then f r else r

/-- The `SET` clause of the claiming `UPDATE`: `status = 'processing',
started_at = NOW(), attempts = attempts + 1`. -/
def claimUpdate (now : Nat) (r : QueueRow) : QueueRow :=
  { r with status := .processing, started_at := some now,
           attempts := r.attempts + 1 }

/-- The single claiming statement of `get_next_pending_photo`: atomically
select the best pending row, mark it processing and return its id.  The
`FOR UPDATE SKIP LOCKED` row locking of the store serializes concurrent
executions of this statement, so a concurrent first wave is modelled as a
sequence of atomic `claimStep`s. -/
def claimStep (now : Nat) (q : List QueueRow) :
    Option String × List QueueRow :=
  match selectNextPending q with
  | none => (none, q)
  | some pid => (some pid, applyToRow pid (claimUpdate now) q)

/-- Function `mark_queue_done`: `SET status = 'done', completed_at = NOW()
WHERE photo_id = $1`. -/
def mark_queue_done (now : Nat) (pid : String) (q : List QueueRow) :
    List QueueRow :=
  applyToRow pid
    (fun r => { r with status := .done, completed_at := some now }) q

/-- Function `mark_queue_error`: `SET status = CASE WHEN attempts >= $3
THEN 'error' ELSE 'pending' END, last_error = $2, started_at = NULL
WHERE photo_id = $1`. -/
def mark_queue_error (pid : String) (err : String) (max_retries : Nat)
    (q : List QueueRow) : List QueueRow :=
  applyToRow pid
    (fun r =>
      { r with
        status := if max_retries ≤ r.attempts then .error else .pending,
        last_error := some err,
        started_at := none }) q

/-- Function `get_next_pending_photo`: claim a row, then dereference the
photo with `SELECT ... FROM photos WHERE id = $1 AND status = 'ready'`;
if that select is empty, mark the queue row done and return null. -/
def get_next_pending_photo (now : Nat) (q : List QueueRow)
    (photos : List PhotoRow) : Option PhotoRow × List QueueRow :=
  match claimStep now q with
  | (none, q1) => (none, q1)
  | (some pid, q1) =>
    match photos.find? (fun p => p.id == pid && p.status == "ready") with
    | some p => (some p, q1)
    | none => (none, mark_queue_done now pid q1)

/-- Ids of the pending rows, in table order. -/
def pendingIds (q : List QueueRow) : List String :=
  (q.filter (fun r => r.status == .pending)).map (·.photo_id)

/-- One wave of `n` concurrent claimers: `n` serialized `claimStep`s,
returning each caller's result. -/
def claimMany (now : Nat) : Nat → List QueueRow →
    List (Option String) × List QueueRow
  | 0, q => ([], q)
  | n + 1, q =>
    let p := claimStep now q
    let ps := claimMany now n p.2
    (p.1 :: ps.1, ps.2)

theorem selectBest_mem (r : QueueRow) (rs : List QueueRow) :
    selectBest r rs ∈ r :: rs := by
  induction rs generalizing r with
  | nil => simp [selectBest]
  | cons c cs ih =>
    have h : selectBest r (c :: cs)
        = selectBest (if betterRow c r then c else r) cs := rfl
    rw [h]
    have h1 := ih (if betterRow c r then c else r)
    rcases List.mem_cons.1 h1 with h2 | h2
    · rw [h2]
      by_cases hb : betterRow c r = true
      · rw [if_pos hb]; simp
      · rw [if_neg hb]; simp
    · simp only [List.mem_cons]
      tauto

theorem selectNextPending_mem {q : List QueueRow} {pid : String}
    (h : selectNextPending q = some pid) : pid ∈ pendingIds q := by
  unfold selectNextPending at h
  unfold pendingIds
  rcases hf : q.filter (fun r => r.status == .pending) with _ | ⟨r, rs⟩
  · rw [hf] at h; simp at h
  · rw [hf] at h
    simp only [Option.some.injEq] at h
    subst h
    rw [hf]
    exact List.mem_map_of_mem _ (selectBest_mem r rs)

theorem selectNextPending_none {q : List QueueRow}
    (h : selectNextPending q = none) : pendingIds q = [] := by
  unfold selectNextPending at h
  unfold pendingIds
  rcases hf : q.filter (fun r => r.status == .pending) with _ | ⟨r, rs⟩
  · rw [hf]; rfl
  · rw [hf] at h; simp at h

theorem applyToRow_map_photo_id (pid : String) (f : QueueRow → QueueRow)
    (hf : ∀ r, (f r).photo_id = r.photo_id) (q : List QueueRow) :
    (applyToRow pid f q).map (·.photo_id) = q.map (·.photo_id) := by
  unfold applyToRow
  induction q with
  | nil => simp
  | cons r rs ih =>
    simp only [List.map_cons, List.map_map] at ih ⊢
    by_cases h : r.photo_id = pid <;> simp [h, hf, ih]

theorem applyToRow_eq_self (pid : String) (f : QueueRow → QueueRow)
    (q : List QueueRow) (h : ∀ r ∈ q, r.photo_id ≠ pid) :
    applyToRow pid f q = q := by
  unfold applyToRow
  induction q with
  | nil => simp
  | cons r rs ih =>
    have h1 : r.photo_id ≠ pid := h r (List.mem_cons_self r rs)
    simp only [List.map_cons, if_neg h1]
    rw [ih (fun x hx => h x (List.mem_cons_of_mem r hx))]

theorem pendingIds_cons_pending {r : QueueRow} (rs : List QueueRow)
    (hs : r.status = QStatus.pending) :
    pendingIds (r :: rs) = r.photo_id :: pendingIds rs := by
  unfold pendingIds
  rw [List.filter_cons_of_pos (by simp [hs])]
  rfl

theorem pendingIds_cons_not_pending {r : QueueRow} (rs : List QueueRow)
    (hs : r.status ≠ QStatus.pending) :
    pendingIds (r :: rs) = pendingIds rs := by
  unfold pendingIds
  rw [List.filter_cons_of_neg (by simp [hs])]

theorem claimUpdate_status (now : Nat) (r : QueueRow) :
    (claimUpdate now r).status = QStatus.processing := rfl

theorem applyToRow_cons (pid : String) (f : QueueRow → QueueRow)
    (r : QueueRow) (rs : List QueueRow) :
    applyToRow pid f (r :: rs)
      = (if r.photo_id = pid then f r else r) :: applyToRow pid f rs := rfl

theorem pendingIds_claim (now : Nat) (pid : String) (q : List QueueRow)
    (hnd : (q.map (·.photo_id)).Nodup) :
    pendingIds (applyToRow pid (claimUpdate now) q)
      = (pendingIds q).erase pid := by
  induction q with
  | nil => rfl
  | cons r rs ih =>
    simp only [List.map_cons, List.nodup_cons] at hnd
    rw [applyToRow_cons]
    by_cases h : r.photo_id = pid
    · have hrest : applyToRow pid (claimUpdate now) rs = rs := by
        apply applyToRow_eq_self
        intro x hx hxe
        apply hnd.1
        rw [h, ← hxe]
        exact List.mem_map_of_mem _ hx
      have hnp : pid ∉ pendingIds rs := by
        intro hmem
        rcases List.mem_map.1 hmem with ⟨x, hx, hxe⟩
        apply hnd.1
        rw [h, ← hxe]
        exact List.mem_map_of_mem _ (List.mem_of_mem_filter hx)
      have hcs : (claimUpdate now r).status ≠ QStatus.pending := by
        rw [claimUpdate_status]; decide
      rw [if_pos h, hrest, pendingIds_cons_not_pending rs hcs]
      by_cases hs : r.status = QStatus.pending
      · rw [pendingIds_cons_pending rs hs, h, List.erase_cons_head]
      · rw [pendingIds_cons_not_pending rs hs, List.erase_of_not_mem hnp]
    · rw [if_neg h]
      by_cases hs : r.status = QStatus.pending
      · rw [pendingIds_cons_pending _ hs, pendingIds_cons_pending rs hs,
          List.erase_cons_tail, ih hnd.2]
        simp [h]
      · rw [pendingIds_cons_not_pending _ hs, pendingIds_cons_not_pending rs hs,
          ih hnd.2]

theorem pendingIds_nodup {q : List QueueRow}
    (hnd : (q.map (·.photo_id)).Nodup) : (pendingIds q).Nodup := by
  unfold pendingIds
  have hsub : ((q.filter (fun r => r.status == .pending)).map (·.photo_id)).Sublist
      (q.map (·.photo_id)) :=
    (List.filter_sublist q).map _
  exact hnd.sublist hsub

theorem claimMany_succ (now n : Nat) (q : List QueueRow) :
    (claimMany now (n + 1) q).1
      = (claimStep now q).1 :: (claimMany now n (claimStep now q).2).1 := rfl

theorem pendingIds_claim_subset (now : Nat) (pid : String) (q : List QueueRow) :
    pendingIds (applyToRow pid (claimUpdate now) q) ⊆ pendingIds q := by
  intro y hy
  unfold pendingIds at hy ⊢
  rcases List.mem_map.1 hy with ⟨r2, hr2, hr2e⟩
  have hr2f := List.of_mem_filter hr2
  have hr2m := List.mem_of_mem_filter hr2
  unfold applyToRow at hr2m
  rcases List.mem_map.1 hr2m with ⟨r0, hr0, hr0e⟩
  by_cases hcase : r0.photo_id = pid
  · rw [if_pos hcase] at hr0e
    rw [← hr0e] at hr2f
    rw [claimUpdate_status now r0] at hr2f
    exact absurd hr2f (by decide)
  · rw [if_neg hcase] at hr0e
    rw [← hr0e] at hr2f hr2e
    rw [← hr2e]
    exact List.mem_map_of_mem _ (List.mem_filter.2 ⟨hr0, hr2f⟩)

theorem claimMany_results_mem (now n : Nat) (q : List QueueRow) :
    ∀ x ∈ (claimMany now n q).1.filterMap id, x ∈ pendingIds q := by
  induction n generalizing q with
  | zero => simp [claimMany]
  | succ n ih =>
    intro x hx
    rw [claimMany_succ] at hx
    rcases hsel : selectNextPending q with _ | pid
    · simp only [claimStep, hsel] at hx
      rw [List.filterMap_cons_none (rfl : id (none : Option String) = none)] at hx
      exact ih q x hx
    · simp only [claimStep, hsel] at hx
      rw [List.filterMap_cons_some (rfl : id (some pid) = some pid)] at hx
      rcases List.mem_cons.1 hx with h | h
      · exact h ▸ selectNextPending_mem hsel
      · exact pendingIds_claim_subset now pid q (ih _ x h)

/-- Claim C1.  A wave of `n` concurrent claimers over a queue whose
`photo_id`s are distinct returns pairwise-distinct photo ids, and the
number of non-null claims is exactly `min n M` where `M` is the number of
pending rows.  Concurrency is modelled by serializing the atomic
skip-locked claiming statements. -/
theorem claim_uniqueness (now n : Nat) (q : List QueueRow)
    (hnd : (q.map (·.photo_id)).Nodup) :
    ((claimMany now n q).1.filterMap id).Nodup ∧
    ((claimMany now n q).1.filterMap id).length = min n (pendingIds q).length := by
  induction n generalizing q with
  | zero => simp [claimMany]
  | succ n ih =>
    rw [claimMany_succ]
    rcases hsel : selectNextPending q with _ | pid
    · simp only [claimStep, hsel]
      have hpe : pendingIds q = [] := selectNextPending_none hsel
      have h2 := ih q hnd
      rw [List.filterMap_cons_none (rfl : id (none : Option String) = none)]
      refine ⟨h2.1, ?_⟩
      rw [h2.2, hpe]
      simp
    · simp only [claimStep, hsel]
      have hq1nd : ((applyToRow pid (claimUpdate now) q).map (·.photo_id)).Nodup := by
        rw [applyToRow_map_photo_id pid (claimUpdate now) (fun r => rfl) q]
        exact hnd
      have h2 := ih _ hq1nd
      have hpend := pendingIds_claim now pid q hnd
      have hpidmem : pid ∈ pendingIds q := selectNextPending_mem hsel
      rw [List.filterMap_cons_some (rfl : id (some pid) = some pid)]
      constructor
      · refine List.nodup_cons.2 ⟨?_, h2.1⟩
        intro hmem
        have hm2 := claimMany_results_mem now n _ pid hmem
        rw [hpend] at hm2
        exact (pendingIds_nodup hnd).not_mem_erase hm2
      · simp only [List.length_cons, h2.2, hpend]
        rw [List.length_erase_of_mem hpidmem]
        have hM : 1 ≤ (pendingIds q).length := List.length_pos.2 (by
          intro he; rw [he] at hpidmem; exact absurd hpidmem (List.not_mem_nil pid))
        omega

/-- Witness for `claim_uniqueness` at a concrete queue of two pending rows
and three claimers. -/
theorem claim_uniqueness_witness :
    (((claimMany 9 3 [⟨"p1", .pending, 0, 0, 0, none, none, none⟩,
        ⟨"p2", .pending, 1, 1, 0, none, none, none⟩]).1.filterMap id).Nodup ∧
      ((claimMany 9 3 [⟨"p1", .pending, 0, 0, 0, none, none, none⟩,
        ⟨"p2", .pending, 1, 1, 0, none, none, none⟩]).1.filterMap id).length
        = min 3 (pendingIds [⟨"p1", .pending, 0, 0, 0, none, none, none⟩,
            ⟨"p2", .pending, 1, 1, 0, none, none, none⟩]).length) :=
  claim_uniqueness 9 3 _ (by decide)

/-! ## Retry bound (`get_next_pending_photo` + `mark_queue_error`) -/

/-- One full cycle of a work item whose processing always raises: the
worker claims it (`get_next_pending_photo`), processing raises, and the
worker calls `mark_queue_error` on it. -/
def failingCycle (now : Nat) (err : String) (max_retries : Nat)
    (q : List QueueRow) : List QueueRow :=
  match claimStep now q with
  | (some pid, q1) => mark_queue_error pid err max_retries q1
  | (none, q1) => q1

/-- Iterated failing cycles. -/
def failingCycles (now : Nat) (err : String) (max_retries : Nat) :
    Nat → List QueueRow → List QueueRow
  | 0, q => q
  | k + 1, q =>
    failingCycle now err max_retries (failingCycles now err max_retries k q)

/-- Freshly enqueued work item, as inserted by the external ingester. -/
def freshRow (pid : String) (prio : Int) (created : Nat) : QueueRow :=
  { photo_id := pid, status := .pending, priority := prio,
    created_at := created, attempts := 0, started_at := none,
    completed_at := none, last_error := none }

/-- State of the single-item queue after `k` failing cycles. -/
def retryRow (pid : String) (prio : Int) (created : Nat) (err : String)
    (max_retries k : Nat) : QueueRow :=
  { photo_id := pid,
    status := if max_retries ≤ k then .error else .pending,
    priority := prio, created_at := created, attempts := k,
    started_at := none, completed_at := none,
    last_error := if k = 0 then none else some err }

theorem claimStep_single_pending (now : Nat) (r : QueueRow)
    (hs : r.status = QStatus.pending) :
    (claimStep now [r]).1 = some r.photo_id := by
  simp [claimStep, selectNextPending, selectBest, hs]

theorem claimStep_single_not_pending (now : Nat) (r : QueueRow)
    (hs : r.status ≠ QStatus.pending) :
    (claimStep now [r]).1 = none := by
  simp [claimStep, selectNextPending, hs]

theorem failingCycle_pending (now : Nat) (err : String) (max_retries : Nat)
    (r : QueueRow) (hs : r.status = QStatus.pending) :
    failingCycle now err max_retries [r]
      = [{ r with
            status := if max_retries ≤ r.attempts + 1 then QStatus.error
              else QStatus.pending,
            attempts := r.attempts + 1,
            started_at := none,
            last_error := some err }] := by
  simp [failingCycle, claimStep, selectNextPending, selectBest, applyToRow,
    mark_queue_error, claimUpdate, hs]

theorem failingCycles_eq (now : Nat) (err : String) (max_retries : Nat)
    (pid : String) (prio : Int) (created : Nat) (h1 : 1 ≤ max_retries) :
    ∀ k, k ≤ max_retries →
      failingCycles now err max_retries k [freshRow pid prio created]
        = [retryRow pid prio created err max_retries k] := by
  intro k
  induction k with
  | zero =>
    intro _
    unfold failingCycles freshRow retryRow
    rw [if_neg (by omega), if_pos rfl]
  | succ k ih =>
    intro hk
    have hk2 : k ≤ max_retries := Nat.le_of_succ_le hk
    have hstep : failingCycles now err max_retries (k + 1)
        [freshRow pid prio created]
        = failingCycle now err max_retries
            (failingCycles now err max_retries k [freshRow pid prio created]) := rfl
    rw [hstep, ih hk2]
    have hs : (retryRow pid prio created err max_retries k).status
        = QStatus.pending := by
      unfold retryRow
      exact if_neg (by omega)
    rw [failingCycle_pending now err max_retries _ hs]
    unfold retryRow
    simp

/-- Claim C2.  A work item whose per-photo processing always raises goes
through exactly `max_retries` pending-to-processing cycles: before each of
the first `max_retries` cycles the item is pending (with `started_at`
null and `last_error` stored after every earlier failure) and the claim
returns it; after the `max_retries`-th failing cycle the item's status is
`error` and no further claim returns it. -/
theorem queue_retry_bound (now : Nat) (err : String) (max_retries : Nat)
    (pid : String) (prio : Int) (created : Nat) (h1 : 1 ≤ max_retries) :
    (∀ k, k < max_retries →
      failingCycles now err max_retries k [freshRow pid prio created]
        = [{ photo_id := pid, status := .pending, priority := prio,
             created_at := created, attempts := k, started_at := none,
             completed_at := none,
             last_error := if k = 0 then none else some err }] ∧
      (claimStep now (failingCycles now err max_retries k
          [freshRow pid prio created])).1 = some pid) ∧
    failingCycles now err max_retries max_retries [freshRow pid prio created]
      = [{ photo_id := pid, status := .error, priority := prio,
           created_at := created, attempts := max_retries,
           started_at := none, completed_at := none,
           last_error := some err }] ∧
    (claimStep now (failingCycles now err max_retries max_retries
        [freshRow pid prio created])).1 = none := by
  have hfin : failingCycles now err max_retries max_retries
      [freshRow pid prio created]
      = [retryRow pid prio created err max_retries max_retries] :=
    failingCycles_eq now err max_retries pid prio created h1 max_retries le_rfl
  refine ⟨?_, ?_, ?_⟩
  · intro k hk
    have hke : failingCycles now err max_retries k [freshRow pid prio created]
        = [retryRow pid prio created err max_retries k] :=
      failingCycles_eq now err max_retries pid prio created h1 k (Nat.le_of_lt hk)
    constructor
    · rw [hke]
      unfold retryRow
      rw [if_neg (by omega)]
    · rw [hke]
      rw [claimStep_single_pending now _ (by unfold retryRow; exact if_neg (by omega))]
      rfl
  · rw [hfin]
    unfold retryRow
    rw [if_pos le_rfl, if_neg (by omega)]
  · rw [hfin]
    apply claimStep_single_not_pending
    unfold retryRow
    simp

/-- Witness for `queue_retry_bound` with `max_retries = 3`. -/
theorem queue_retry_bound_witness :
    failingCycles 5 "boom" 3 3 [freshRow "p1" 0 0]
      = [{ photo_id := "p1", status := .error, priority := 0, created_at := 0,
           attempts := 3, started_at := none, completed_at := none,
           last_error := some "boom" }] ∧
    (claimStep 5 (failingCycles 5 "boom" 3 3 [freshRow "p1" 0 0])).1 = none :=
  ⟨(queue_retry_bound 5 "boom" 3 "p1" 0 0 (by decide)).2.1,
   (queue_retry_bound 5 "boom" 3 "p1" 0 0 (by decide)).2.2⟩

/-! ## Silent completion of unavailable photos (claim C9) -/

/-- Claim C9.  When the claimed queue row's photo is missing from the
`photos` table or is not in `ready` state, `get_next_pending_photo`
returns null and marks the work item done (`status = 'done'`,
`completed_at` set), without raising. -/
theorem claimed_missing_photo_done (now : Nat) (q : List QueueRow)
    (photos : List PhotoRow) (pid : String)
    (hsel : selectNextPending q = some pid)
    (hph : ∀ p ∈ photos, p.id = pid → p.status ≠ "ready") :
    (get_next_pending_photo now q photos).1 = none ∧
    ∀ r ∈ q, r.photo_id = pid →
      { r with status := QStatus.done, completed_at := some now,
               attempts := r.attempts + 1, started_at := some now }
        ∈ (get_next_pending_photo now q photos).2 := by
  have hfind : photos.find? (fun p => p.id == pid && p.status == "ready")
      = none := by
    apply List.find?_eq_none.2
    intro p hp
    by_cases hid : p.id = pid
    · have hns := hph p hp hid
      simp [hid, hns]
    · simp [hid]
  have hcs : claimStep now q = (some pid, applyToRow pid (claimUpdate now) q) := by
    unfold claimStep
    rw [hsel]
  constructor
  · unfold get_next_pending_photo
    rw [hcs]
    dsimp only
    rw [hfind]
  · intro r hr hrid
    unfold get_next_pending_photo
    rw [hcs]
    dsimp only
    rw [hfind]
    dsimp only
    unfold mark_queue_done applyToRow
    rw [List.map_map]
    refine List.mem_map.2 ⟨r, hr, ?_⟩
    simp [Function.comp, hrid, claimUpdate]

/-- Witness for `claimed_missing_photo_done`: the photos table is empty. -/
theorem claimed_missing_photo_done_witness :
    (get_next_pending_photo 4 [freshRow "p1" 0 0] []).1 = none ∧
    ({ photo_id := "p1", status := QStatus.done, priority := 0,
       created_at := 0, attempts := 1, started_at := some 4,
       completed_at := some 4, last_error := none } : QueueRow)
      ∈ (get_next_pending_photo 4 [freshRow "p1" 0 0] []).2 :=
  ⟨(claimed_missing_photo_done 4 [freshRow "p1" 0 0] [] "p1" rfl
      (by intro p hp; cases hp)).1,
   (claimed_missing_photo_done 4 [freshRow "p1" 0 0] [] "p1" rfl
      (by intro p hp; cases hp)).2 (freshRow "p1" 0 0) (by simp) rfl⟩

/-! ## Photo AI-result update (`update_photo_ai_results`) -/

/-- Columns of a `photos` row touched by `update_photo_ai_results`. -/
structure PhotoRec where
  id : String
  taken_at : Option Nat
  ai_processed_at : Option Nat
  ai_ocr_text : Option String
  ai_ocr_date : Option Nat
  ai_person_ids : Option (List String)
  ai_colors : Option (List String)
  ai_quality_score : Option ℚ
deriving DecidableEq, Repr

/-- Function `update_photo_ai_results`: dynamic `UPDATE photos SET ...`.
`ai_processed_at = NOW()` and `ai_person_ids` are always in the `SET`
list (`ai_person_ids` becomes SQL `NULL` when the list is empty); the
other columns are added only when the corresponding argument is not
`None`, and `taken_at = COALESCE(taken_at, $ocr_date)` is added only when
an `ocr_date` is supplied and `update_taken_at` is true. -/
def update_photo_ai_results (now : Nat) (person_ids : List String)
    (ocr_text : Option String) (ocr_date : Option Nat)
    (colors : Option (List String)) (quality_score : Option ℚ)
    (update_taken_at : Bool) (p : PhotoRec) : PhotoRec :=
  let p1 := { p with ai_processed_at := some now,
                     ai_person_ids :=
                       if person_ids.isEmpty then none else some person_ids }
  let p2 := match ocr_text with
    | some t => { p1 with ai_ocr_text := some t }
    | none => p1
  let p3 := match ocr_date with
    | some dte =>
      let pd := { p2 with ai_ocr_date := some dte }
      if update_taken_at then
        { pd with taken_at := match pd.taken_at with
            | some t0 => some t0
            | none => some dte }
      else pd
    | none => p2
  let p4 := match colors with
    | some cs => { p3 with ai_colors := some cs }
    | none => p3
  match quality_score with
  | some qs => { p4 with ai_quality_score := some qs }
  | none => p4

/-- Claim C10.  Columns whose argument is `None` are left unchanged by
`update_photo_ai_results`; `taken_at` is touched only when an `ocr_date`
is supplied and `update_taken_at` is true; `ai_processed_at` and
`ai_person_ids` are written on every call, the latter as `NULL` when the
person-id list is empty. -/
theorem update_photo_ai_results_frame (now : Nat) (person_ids : List String)
    (ocr_text : Option String) (ocr_date : Option Nat)
    (colors : Option (List String)) (quality_score : Option ℚ)
    (update_taken_at : Bool) (p : PhotoRec) :
    ((update_photo_ai_results now person_ids ocr_text ocr_date colors
        quality_score update_taken_at p).ai_processed_at = some now) ∧
    (person_ids = [] →
      (update_photo_ai_results now person_ids ocr_text ocr_date colors
        quality_score update_taken_at p).ai_person_ids = none) ∧
    (person_ids ≠ [] →
      (update_photo_ai_results now person_ids ocr_text ocr_date colors
        quality_score update_taken_at p).ai_person_ids = some person_ids) ∧
    (ocr_text = none →
      (update_photo_ai_results now person_ids ocr_text ocr_date colors
        quality_score update_taken_at p).ai_ocr_text = p.ai_ocr_text) ∧
    (ocr_date = none →
      (update_photo_ai_results now person_ids ocr_text ocr_date colors
        quality_score update_taken_at p).ai_ocr_date = p.ai_ocr_date) ∧
    (ocr_date = none ∨ update_taken_at = false →
      (update_photo_ai_results now person_ids ocr_text ocr_date colors
        quality_score update_taken_at p).taken_at = p.taken_at) ∧
    (colors = none →
      (update_photo_ai_results now person_ids ocr_text ocr_date colors
        quality_score update_taken_at p).ai_colors = p.ai_colors) ∧
    (quality_score = none →
      (update_photo_ai_results now person_ids ocr_text ocr_date colors
        quality_score update_taken_at p).ai_quality_score
        = p.ai_quality_score) ∧
    (update_photo_ai_results now person_ids ocr_text ocr_date colors
        quality_score update_taken_at p).id = p.id := by
  unfold update_photo_ai_results
  rcases person_ids with _ | ⟨a, as⟩ <;>
    rcases ocr_text with _ | t <;>
      rcases ocr_date with _ | dte <;>
        rcases colors with _ | cs <;>
          rcases quality_score with _ | qs <;>
            cases update_taken_at <;>
              simp

/-- Witness for `update_photo_ai_results_frame`: all optional arguments
absent and an empty person list leave every other column unchanged. -/
theorem update_photo_ai_results_frame_witness :
    ((update_photo_ai_results 9 [] none none none none false
        ⟨"ph", some 1, none, some "t", some 2, none, some ["red"], some (1/2)⟩).ai_processed_at
      = some 9) ∧
    ((update_photo_ai_results 9 [] none none none none false
        ⟨"ph", some 1, none, some "t", some 2, none, some ["red"], some (1/2)⟩).ai_person_ids
      = none) ∧
    ((update_photo_ai_results 9 [] none none none none false
        ⟨"ph", some 1, none, some "t", some 2, none, some ["red"], some (1/2)⟩).ai_ocr_text
      = some "t") ∧
    ((update_photo_ai_results 9 [] none none none none false
        ⟨"ph", some 1, none, some "t", some 2, none, some ["red"], some (1/2)⟩).ai_ocr_date
      = some 2) ∧
    ((update_photo_ai_results 9 [] none none none none false
        ⟨"ph", some 1, none, some "t", some 2, none, some ["red"], some (1/2)⟩).taken_at
      = some 1) ∧
    ((update_photo_ai_results 9 [] none none none none false
        ⟨"ph", some 1, none, some "t", some 2, none, some ["red"], some (1/2)⟩).ai_colors
      = some ["red"]) ∧
    ((update_photo_ai_results 9 [] none none none none false
        ⟨"ph", some 1, none, some "t", some 2, none, some ["red"], some (1/2)⟩).ai_quality_score
      = some (1/2)) := by
  have h := update_photo_ai_results_frame 9 [] none none none none false
    ⟨"ph", some 1, none, some "t", some 2, none, some ["red"], some (1/2)⟩
  exact ⟨h.1, h.2.1 rfl, h.2.2.2.1 rfl, h.2.2.2.2.1 rfl,
    h.2.2.2.2.2.1 (Or.inl rfl), h.2.2.2.2.2.2.1 rfl,
    h.2.2.2.2.2.2.2.1 rfl⟩

/-! ## The worker's person-id write (claim C6) -/

/-- Models CPython `list(set(xs))` for a list of strings: some
duplicate-free enumeration of the elements of `xs`.  The enumeration
order of a CPython `set` of strings depends on the salted string hash and
is unspecified, so it is a relation, not a function. -/
def isPySetList (xs out : List String) : Prop :=
  out.Nodup ∧ ∀ a, a ∈ out ↔ a ∈ xs

/-- The worker's photo-update step (`AIWorker._process_photo`, step 4):
`update_photo_ai_results` is called with `person_ids = list(set(person_ids))`
and with `colors` and `quality_score` left at their `None` defaults.
`dedup` stands for the value of `list(set(person_ids))`. -/
def workerPhotoUpdate (now : Nat) (dedup : List String)
    (ocr_text : Option String) (ocr_date : Option Nat)
    (update_taken_at : Bool) (p : PhotoRec) : PhotoRec :=
  update_photo_ai_results now dedup ocr_text ocr_date none none
    update_taken_at p

/-- Counterexample to claim C6: the worker deduplicates the person-id
list with `list(set(...))` but never sorts it, so a hash order that
enumerates `person_b` before `person_a` is written as-is, and the stored
list is not sorted. -/
theorem worker_person_ids_not_sorted :
    ¬ (∀ (raw out : List String) (p : PhotoRec) (now : Nat),
        isPySetList raw out →
        ∀ l, (workerPhotoUpdate now out none none false p).ai_person_ids
            = some l →
          l.Sorted (· ≤ ·)) := by
  intro h
  have hset : isPySetList ["person_b", "person_a"] ["person_b", "person_a"] := by
    constructor
    · decide
    · intro a
      constructor <;> (intro ha; simpa using ha)
  have hs := h ["person_b", "person_a"] ["person_b", "person_a"]
    ⟨"ph", none, none, none, none, none, none, none⟩ 0 hset
    ["person_b", "person_a"] rfl
  have hle : ("person_b" : String) ≤ "person_a" :=
    List.rel_of_sorted_cons hs "person_a" (by simp)
  rw [String.le_iff_toList_le] at hle
  exact absurd hle (by decide)

/-- Claim C6 as amended: after the worker's photo-update step,
`ai_person_ids` holds exactly the set of person ids assigned to the
photo's faces with duplicates removed — in unspecified order, not
necessarily sorted — and is SQL `NULL` when no person was assigned. -/
theorem worker_person_ids_unique_set (now : Nat) (raw out : List String)
    (ocr_text : Option String) (ocr_date : Option Nat)
    (update_taken_at : Bool) (p : PhotoRec) (h : isPySetList raw out) :
    (raw = [] →
      (workerPhotoUpdate now out ocr_text ocr_date update_taken_at p).ai_person_ids
        = none) ∧
    (raw ≠ [] →
      (workerPhotoUpdate now out ocr_text ocr_date update_taken_at p).ai_person_ids
          = some out ∧
        out.Nodup ∧ ∀ a, a ∈ out ↔ a ∈ raw) := by
  have hids : (workerPhotoUpdate now out ocr_text ocr_date update_taken_at
      p).ai_person_ids = if out.isEmpty then none else some out := by
    unfold workerPhotoUpdate update_photo_ai_results
    rcases ocr_text with _ | t <;>
      rcases ocr_date with _ | dte <;>
        cases update_taken_at <;>
          simp
  constructor
  · intro hraw
    have hout : out = [] := by
      apply List.eq_nil_iff_forall_not_mem.2
      intro a ha
      have := (h.2 a).1 ha
      rw [hraw] at this
      exact absurd this (List.not_mem_nil a)
    rw [hids, hout]
    rfl
  · intro hraw
    rcases List.exists_mem_of_ne_nil raw hraw with ⟨a, ha⟩
    have hout : out ≠ [] := by
      intro he
      have := (h.2 a).2 ha
      rw [he] at this
      exact absurd this (List.not_mem_nil a)
    rw [hids, if_neg (by simpa [List.isEmpty_iff] using hout)]
    exact ⟨rfl, h.1, h.2⟩

/-- Witness for `worker_person_ids_unique_set`: two duplicate ids collapse
to a singleton. -/
theorem worker_person_ids_unique_set_witness :
    (workerPhotoUpdate 3 ["a"] none none false
        ⟨"ph", none, none, none, none, none, none, none⟩).ai_person_ids
      = some ["a"] :=
  ((worker_person_ids_unique_set 3 ["a", "a"] ["a"] none none false
      ⟨"ph", none, none, none, none, none, none, none⟩
      ⟨by decide, by intro a; simp⟩).2 (by simp)).1

/-! ## Real-vector utilities, face embedder and person clusterer -/

noncomputable section

/-- Sum of squares of a vector (the square of `np.linalg.norm`). -/
def sumSq (v : List ℝ) : ℝ := (v.map (fun x => x * x)).sum

/-- Dot product `np.dot` of two equal-length vectors. -/
def dotp (a b : List ℝ) : ℝ := (List.zipWith (· * ·) a b).sum

/-- Euclidean norm `np.linalg.norm`. -/
def l2norm (v : List ℝ) : ℝ := Real.sqrt (sumSq v)

theorem sumSq_nonneg (v : List ℝ) : 0 ≤ sumSq v := by
  unfold sumSq
  induction v with
  | nil => simp
  | cons x xs ih =>
    simp only [List.map_cons, List.sum_cons]
    nlinarith [mul_self_nonneg x]

theorem sumSq_map_div (v : List ℝ) (c : ℝ) :
    sumSq (v.map (fun x => x / c)) = sumSq v / (c * c) := by
  unfold sumSq
  induction v with
  | nil => simp
  | cons x xs ih =>
    simp only [List.map_cons, List.sum_cons, ih]
    rw [div_mul_div_comm, div_add_div_same]

/-- Method `FaceRecognizer._normalize_embedding`: divide by the L2 norm
when it is positive, else return the vector unchanged. -/
def normalize_embedding (v : List ℝ) : List ℝ :=
  if l2norm v > 0 then v.map (fun x => x / l2norm v) else v

/-- Method `FaceRecognizer.get_embedding`: align, preprocess, run the
recognition model (opaque; `modelOut` is its output vector) and
L2-normalize the result. -/
def get_embedding (modelOut : List ℝ) : List ℝ :=
  normalize_embedding modelOut

theorem l2norm_normalize (v : List ℝ) (h : sumSq v ≠ 0) :
    l2norm (normalize_embedding v) = 1 := by
  have hpos : 0 < sumSq v := lt_of_le_of_ne (sumSq_nonneg v) (Ne.symm h)
  have hnorm : l2norm v > 0 := Real.sqrt_pos.2 hpos
  unfold normalize_embedding
  rw [if_pos hnorm]
  unfold l2norm
  rw [sumSq_map_div, Real.mul_self_sqrt (le_of_lt hpos), div_self h,
    Real.sqrt_one]

/-- Counterexample to claim C5: when the recognition model outputs the
zero vector, `_normalize_embedding` returns it unchanged (its norm is 0,
not within `1e-5` of 1), and `get_embedding` returns that zero vector
rather than null. -/
theorem embedding_norm_zero_vector :
    ¬ (|l2norm (get_embedding (List.replicate 512 0)) - 1| < 1e-5) := by
  have h0 : sumSq (List.replicate 512 (0 : ℝ)) = 0 := by
    rw [sumSq, List.map_replicate, mul_zero, List.sum_replicate, smul_zero]
  have hn : l2norm (List.replicate 512 (0 : ℝ)) = 0 := by
    rw [l2norm, h0, Real.sqrt_zero]
  have he : get_embedding (List.replicate 512 (0 : ℝ))
      = List.replicate 512 (0 : ℝ) := by
    unfold get_embedding normalize_embedding
    rw [if_neg (by rw [hn]; exact lt_irrefl 0)]
  rw [he, hn]
  norm_num

/-- Claim C5 as amended: every embedding the embedder returns for a raw
model output of nonzero norm is exactly unit-length (hence within `1e-5`
of 1); the zero raw output is the single exception, returned unchanged
with norm 0. -/
theorem embedding_norm_unit (modelOut : List ℝ) (h : sumSq modelOut ≠ 0) :
    |l2norm (get_embedding modelOut) - 1| < 1e-5 := by
  unfold get_embedding
  rw [l2norm_normalize modelOut h]
  norm_num

/-- Witness for `embedding_norm_unit` at a concrete model output. -/
theorem embedding_norm_unit_witness :
    |l2norm (get_embedding [1, 0]) - 1| < 1e-5 :=
  embedding_norm_unit [1, 0] (by norm_num [sumSq])

/-! ## Person clusterer (`get_or_create_person`, claim C3) -/

/-- Gallery row of the `faces` table (`SELECT f.id, f.person_id,
f.embedding FROM faces f WHERE f.embedding IS NOT NULL`). -/
structure FaceRow where
  face_id : String
  person_id : String
  embedding : Option (List ℝ)

/-- Function `cosine_distance` from `queries.py`: `1 - dot/(‖a‖·‖b‖)`,
returning `1.0` when either norm is zero. -/
def cosine_distance (a b : List ℝ) : ℝ :=
  if l2norm a = 0 ∨ l2norm b = 0 then 1
  else 1 - dotp a b / (l2norm a * l2norm b)

/-- One step of the scan loop of `get_or_create_person` over the
accumulator `(best_face_id, best_person_id, best_distance)`; `none`
models the initial `best_distance = float("inf")` state, and a row
participates only when its `embedding` is truthy (non-null and
non-empty, Python `if row["embedding"]`). -/
def bestStep (query : List ℝ) (best : Option (String × String × ℝ))
    (r : FaceRow) : Option (String × String × ℝ) :=
  match r.embedding with
  | some e =>
    if e.isEmpty then best
    else
      match best with
      | none => some (r.face_id, r.person_id, cosine_distance query e)
      | some (bf, bp, bd) =>
        if cosine_distance query e < bd
        then some (r.face_id, r.person_id, cosine_distance query e)
        else some (bf, bp, bd)
  | none => best

/-- The scan loop of `get_or_create_person`. -/
def bestMatch (query : List ℝ) (rows : List FaceRow) :
    Option (String × String × ℝ) :=
  rows.foldl (bestStep query) none

/-- Result triple of `get_or_create_person`. -/
structure AssignResult where
  person_id : String
  face_id : String
  is_new : Bool

/-- Function `get_or_create_person`: linear scan for the closest gallery
embedding; if a truthy best face exists at distance strictly below the
threshold, return the existing person (`is_new = false`); otherwise mint
and persist a new person and face.  The random ids of the new person and
face (`uuid4` suffixes) are the parameters `newPid`, `newFid`. -/
def get_or_create_person (rows : List FaceRow) (embedding : List ℝ)
    (threshold : ℝ) (newPid newFid : String) : AssignResult :=
  match bestMatch embedding rows with
  | some (bf, bp, bd) =>
    if bf ≠ "" ∧ bd < threshold then ⟨bp, bf, false⟩
    else ⟨newPid, newFid, true⟩
  | none => ⟨newPid, newFid, true⟩

theorem bestMatch_go (query : List ℝ) (rows : List FaceRow) :
    ∀ (acc : Option (String × String × ℝ)) (bf bp : String) (bd : ℝ),
      rows.foldl (bestStep query) acc = some (bf, bp, bd) →
      acc = some (bf, bp, bd) ∨
        ∃ r ∈ rows, ∃ e, r.embedding = some e
          ∧ bd = cosine_distance query e := by
  induction rows with
  | nil =>
    intro acc bf bp bd h
    exact Or.inl h
  | cons r rs ih =>
    intro acc bf bp bd h
    rw [List.foldl_cons] at h
    rcases ih (bestStep query acc r) bf bp bd h with h1 | h1
    · unfold bestStep at h1
      rcases hemb : r.embedding with _ | e
      · rw [hemb] at h1
        dsimp only at h1
        exact Or.inl h1
      · rw [hemb] at h1
        dsimp only at h1
        by_cases hne : e.isEmpty
        · rw [if_pos hne] at h1
          exact Or.inl h1
        · rw [if_neg hne] at h1
          rcases acc with _ | ⟨af, ap, ad⟩
          · simp only [Option.some.injEq, Prod.mk.injEq] at h1
            exact Or.inr ⟨r, List.mem_cons_self r rs, e, hemb, h1.2.2.symm⟩
          · dsimp only at h1
            by_cases hlt : cosine_distance query e < ad
            · rw [if_pos hlt] at h1
              simp only [Option.some.injEq, Prod.mk.injEq] at h1
              exact Or.inr ⟨r, List.mem_cons_self r rs, e, hemb, h1.2.2.symm⟩
            · rw [if_neg hlt] at h1
              exact Or.inl h1
    · rcases h1 with ⟨r2, hr2, e, hemb, hd⟩
      exact Or.inr ⟨r2, List.mem_cons_of_mem r hr2, e, hemb, hd⟩

/-- Claim C3.  If every gallery embedding lies at cosine distance at
least `t` from the query (in particular when the minimum distance is
exactly `t`), `get_or_create_person` creates a new person
(`is_new = true`); an existing person is returned only when some gallery
embedding lies at distance strictly less than `t`. -/
theorem clusterer_threshold_boundary (rows : List FaceRow) (query : List ℝ)
    (t : ℝ) (newPid newFid : String) :
    ((∀ r ∈ rows, ∀ e, r.embedding = some e →
        t ≤ cosine_distance query e) →
      (get_or_create_person rows query t newPid newFid).is_new = true) ∧
    ((get_or_create_person rows query t newPid newFid).is_new = false →
      ∃ r ∈ rows, ∃ e, r.embedding = some e
        ∧ cosine_distance query e < t) := by
  constructor
  · intro hmin
    unfold get_or_create_person
    rcases hbm : bestMatch query rows with _ | ⟨bf, bp, bd⟩
    · rfl
    · rcases bestMatch_go query rows none bf bp bd hbm with h1 | h1
      · exact absurd h1 (by simp)
      · rcases h1 with ⟨r, hr, e, hemb, hd⟩
        have hge : t ≤ bd := hd ▸ hmin r hr e hemb
        dsimp only
        rw [if_neg (fun hc => absurd hc.2 (not_lt.2 hge))]
  · intro hnew
    unfold get_or_create_person at hnew
    rcases hbm : bestMatch query rows with _ | ⟨bf, bp, bd⟩
    · rw [hbm] at hnew
      exact absurd hnew (by simp)
    · rw [hbm] at hnew
      dsimp only at hnew
      by_cases hc : bf ≠ "" ∧ bd < t
      · rcases bestMatch_go query rows none bf bp bd hbm with h1 | h1
        · exact absurd h1 (by simp)
        · rcases h1 with ⟨r, hr, e, hemb, hd⟩
          exact ⟨r, hr, e, hemb, hd ▸ hc.2⟩
      · rw [if_neg hc] at hnew
        exact absurd hnew (by simp)

/-- Witness for `clusterer_threshold_boundary`: a gallery face at cosine
distance exactly 1 from the query, with threshold 1, yields a new
person. -/
theorem clusterer_threshold_boundary_witness :
    (get_or_create_person [⟨"f1", "p1", some [1, 0]⟩] [0, 1] 1
        "pn" "fn").is_new = true := by
  apply (clusterer_threshold_boundary [⟨"f1", "p1", some [1, 0]⟩] [0, 1] 1
    "pn" "fn").1
  intro r hr e he
  rcases List.mem_singleton.1 hr with rfl
  simp only [Option.some.injEq] at he
  subst he
  have h1 : l2norm [(0 : ℝ), 1] = 1 := by
    unfold l2norm
    rw [show sumSq [(0 : ℝ), 1] = 1 by norm_num [sumSq], Real.sqrt_one]
  have h2 : l2norm [(1 : ℝ), 0] = 1 := by
    unfold l2norm
    rw [show sumSq [(1 : ℝ), 0] = 1 by norm_num [sumSq], Real.sqrt_one]
  unfold cosine_distance
  rw [if_neg (by rw [h1, h2]; norm_num), h1, h2,
    show dotp [(0 : ℝ), 1] [(1 : ℝ), 0] = 0 by norm_num [dotp]]
  norm_num

end

/-! ## Worker per-photo pipeline (`AIWorker._process_photo` / `run`) -/

/-- Stage toggles of the worker (settings `ai_faces_enabled`,
`ai_tags_enabled`, `ai_ocr_enabled`). -/
structure WorkerFlags where
  faces_enabled : Bool
  tags_enabled : Bool
  ocr_enabled : Bool
deriving DecidableEq, Repr

/-- Outcomes of the effectful calls made while processing one photo; the
inference and database calls are opaque, so their outcomes are inputs of
the embedding.  `facesRes` summarizes the face stage (detect, per-face
embed, clusterer): one entry per detected face, `some personId` when its
embedding succeeded; a `none` face is skipped, because
`FaceRecognizer.get_embeddings` catches per-face failures and nulls the
embedding.  `tagsRes` is the outcome of the tag stage
(`clip_tagger.tag` plus tag persistence), which has no try/except of its
own; an `error` means the stage raised (when `clip_tagger.tag` itself
raises, no tag edge has been written).  `ocr_processor.process` catches
every exception internally and returns an empty result instead, so the
OCR outcome is total.  `updateRes` is the outcome of
`update_photo_ai_results`. -/
structure StageEnv where
  loadOk : Bool
  facesRes : Except String (List (Option String))
  tagsRes : Except String (List String)
  ocrText : Option String
  ocrDate : Option Nat
  updateRes : Except String Unit
deriving Repr

/-- Observable effects of processing one photo. -/
structure Effects where
  personIds : List String
  tagsWritten : List String
  ocrRan : Bool
  photoUpdated : Bool
deriving DecidableEq, Repr

/-- Control flow of `AIWorker._process_photo`: raise if the image fails
to load, then faces → tags → OCR → photo update in order, with no
per-stage try/except, so a raising stage aborts the rest; the second
component is the exception message when the call raised. -/
def processPhoto (flags : WorkerFlags) (env : StageEnv) :
    Effects × Option String :=
  let eff0 : Effects := ⟨[], [], false, false⟩
  if ¬ env.loadOk then (eff0, some "Could not load image")
  else
    match (if flags.faces_enabled then env.facesRes else .ok []) with
    | .error e => (eff0, some e)
    | .ok faceOuts =>
      let eff1 := { eff0 with personIds := faceOuts.filterMap id }
      match (if flags.tags_enabled then env.tagsRes else .ok []) with
      | .error e => (eff1, some e)
      | .ok tagIds =>
        let eff2 := { eff1 with tagsWritten := tagIds,
                                ocrRan := flags.ocr_enabled }
        match env.updateRes with
        | .error e => (eff2, some e)
        | .ok _ => ({ eff2 with photoUpdated := true }, none)

/-- Queue action taken by `AIWorker.run` for one item. -/
inductive QueueAction where
  | markDone
  | markError (msg : String)
deriving DecidableEq, Repr

/-- One iteration of `AIWorker.run` after a successful claim:
`_process_photo` then `mark_queue_done`, or `mark_queue_error` when the
photo raised (the run loop also counts an item error then). -/
def runItem (flags : WorkerFlags) (env : StageEnv) :
    Effects × QueueAction :=
  match processPhoto flags env with
  | (eff, none) => (eff, .markDone)
  | (eff, some e) => (eff, .markError e)

/-- Counterexample to claim C7: a tag-stage exception is not confined to
the tag stage — `_process_photo` has no try/except around it, so the
exception propagates, OCR never runs, the photo update never commits,
and the queue entry is failed, not marked done. -/
theorem tag_failure_not_confined :
    ¬ (∀ (flags : WorkerFlags) (env : StageEnv) (e : String),
        flags.tags_enabled = true → env.loadOk = true →
        env.tagsRes = .error e →
        (runItem flags env).1.ocrRan = true ∧
        (runItem flags env).1.photoUpdated = true ∧
        (runItem flags env).2 = .markDone) := by
  intro hall
  have h := hall ⟨true, true, true⟩
    ⟨true, .ok [], .error "tag stage failed", none, none, .ok ()⟩
    "tag stage failed" rfl rfl rfl
  exact absurd h.2.2 (by decide)

/-- Claim C7 as amended: an exception in the tag stage aborts that
photo's processing: the remaining stages do not run (no OCR, no photo
record update), and the queue entry is failed via `mark_queue_error`
(counted as an item error) instead of being marked done; when
`clip_tagger.tag` itself raised, no tag edge was written. -/
theorem tag_failure_aborts_photo (flags : WorkerFlags) (env : StageEnv)
    (e : String) (hl : env.loadOk = true) (ht : flags.tags_enabled = true)
    (hfaces : ∃ l, env.facesRes = .ok l) (htr : env.tagsRes = .error e) :
    (runItem flags env).1.tagsWritten = [] ∧
    (runItem flags env).1.ocrRan = false ∧
    (runItem flags env).1.photoUpdated = false ∧
    (runItem flags env).2 = .markError e := by
  rcases hfaces with ⟨l, hf⟩
  by_cases hfe : flags.faces_enabled = true <;>
    simp [runItem, processPhoto, hl, ht, htr, hf, hfe]

/-- Witness for `tag_failure_aborts_photo` at a concrete environment. -/
theorem tag_failure_aborts_photo_witness :
    (runItem ⟨true, true, true⟩
        ⟨true, .ok [some "person_1"], .error "boom", none, none,
          .ok ()⟩).1.photoUpdated = false ∧
    (runItem ⟨true, true, true⟩
        ⟨true, .ok [some "person_1"], .error "boom", none, none,
          .ok ()⟩).2 = .markError "boom" :=
  ⟨(tag_failure_aborts_photo ⟨true, true, true⟩
      ⟨true, .ok [some "person_1"], .error "boom", none, none, .ok ()⟩
      "boom" rfl rfl ⟨[some "person_1"], rfl⟩ rfl).2.2.1,
   (tag_failure_aborts_photo ⟨true, true, true⟩
      ⟨true, .ok [some "person_1"], .error "boom", none, none, .ok ()⟩
      "boom" rfl rfl ⟨[some "person_1"], rfl⟩ rfl).2.2.2⟩

/-! ## Face detector post-processing (`FaceDetector.detect`, claim C4)

Python floats become `ℚ` here (the code only adds, subtracts, multiplies,
divides and compares).  The model session is opaque: its nine output
tensors (three per stride) are inputs of the embedding, as the flattened
lists the code reshapes them to.  The code indexes
`anchor_centers[pos_inds]` and `bbox_preds[pos_inds]` without shape
checks; anchors are addressed by index through the closed form of
`_generate_anchors`, and out-of-range indexing (a shape-mismatched model)
is given the default row 0 instead of raising. -/

/-- Decoded box `(x1, y1, x2, y2)` in pixels. -/
structure Box4 where
  x1 : ℚ
  y1 : ℚ
  x2 : ℚ
  y2 : ℚ
deriving DecidableEq, Repr

/-- One row of the `(-1, 4)`-reshaped bbox-distance tensor. -/
structure Dist4 where
  d0 : ℚ
  d1 : ℚ
  d2 : ℚ
  d3 : ℚ
deriving DecidableEq, Repr

/-- Method `FaceDetector._generate_anchors` in closed form: the anchor
array is the row-major grid of cell corners `(col·stride, row·stride)`,
each center repeated `num_anchors = 2` times, so entry `i` belongs to
cell `i / 2` with `col = (i / 2) % width` and `row = (i / 2) / width`. -/
def anchorCenter (stride width i : ℕ) : ℚ × ℚ :=
  ((((i / 2) % width : ℕ) : ℚ) * (stride : ℚ),
   (((i / 2) / width : ℕ) : ℚ) * (stride : ℚ))

/-- Method `FaceDetector._distance2bbox`:
`(cx - d0, cy - d1, cx + d2, cy + d3)`. -/
def distance2bbox (c : ℚ × ℚ) (d : Dist4) : Box4 :=
  ⟨c.1 - d.d0, c.2 - d.d1, c.1 + d.d2, c.2 + d.d3⟩

/-- Method `FaceDetector._distance2kps` on one anchor row: offset pairs
added to the center. -/
def distance2kps (c : ℚ × ℚ) (d : List ℚ) : List (ℚ × ℚ) :=
  (List.range (d.length / 2)).map fun i =>
    (c.1 + d.getD (2 * i) 0, c.2 + d.getD (2 * i + 1) 0)

/-- Raw model outputs for one FPN stride: flattened scores,
`(-1, 4)`-reshaped bbox distances, `(-1, 10)`-reshaped keypoint
distances. -/
structure StrideOut where
  scores : List ℚ
  bbox : List Dist4
  kps : List (List ℚ)
deriving Repr

/-- A score-filtered, decoded detection candidate. -/
structure Cand where
  box : Box4
  kps : List (ℚ × ℚ)
  score : ℚ
deriving DecidableEq, Repr

/-- Per-stride decode inside `FaceDetector.detect`: multiply the distance
tensors by the stride, keep indices with `score >= min_confidence`,
decode boxes and keypoints at the kept anchor centers. -/
def processStride (minConf : ℚ) (inputSide stride : ℕ) (out : StrideOut) :
    List Cand :=
  let width := inputSide / stride
  ((List.range out.scores.length).filter
      (fun i => minConf ≤ out.scores.getD i 0)).map
    (fun i =>
      let c := anchorCenter stride width i
      let d := out.bbox.getD i ⟨0, 0, 0, 0⟩
      let b := distance2bbox c
        ⟨d.d0 * stride, d.d1 * stride, d.d2 * stride, d.d3 * stride⟩
      let kd := (out.kps.getD i []).map (fun x => x * (stride : ℚ))
      ⟨b, distance2kps c kd, out.scores.getD i 0⟩)

/-- Box area as computed in `_nms`: `(x2 - x1) * (y2 - y1)`. -/
def boxArea (b : Box4) : ℚ := (b.x2 - b.x1) * (b.y2 - b.y1)

/-- Pairwise IoU as computed in `_nms` (overlap clamped at 0).  A zero
denominator yields 0 here where numpy would produce nan; no claim here
depends on that degenerate corner. -/
def boxIoU (a b : Box4) : ℚ :=
  let inter := max 0 (min a.x2 b.x2 - max a.x1 b.x1)
    * max 0 (min a.y2 b.y2 - max a.y1 b.y1)
  inter / (boxArea a + boxArea b - inter)

/-- Index sort `scores.argsort()[::-1]`: stable ascending sort of the
indices by score, then reversed.  numpy's default quicksort is unstable,
so the order of ties is unspecified; this embedding fixes the stable
ascending order. -/
def argsortDesc (scores : List ℚ) : List ℕ :=
  (List.insertionSort
    (fun i j => scores.getD i 0 ≤ scores.getD j 0)
    (List.range scores.length)).reverse

/-- Greedy suppression loop of `_nms`.  The fuel is structural; any fuel
at least the length of the order list is exact, since the filter only
shrinks it. -/
def nmsLoop (boxes : List Box4) (thr : ℚ) : ℕ → List ℕ → List ℕ
  | 0, _ => []
  | _, [] => []
  | fuel + 1, i :: rest =>
    i :: nmsLoop boxes thr fuel
      (rest.filter (fun j =>
        boxIoU (boxes.getD i ⟨0, 0, 0, 0⟩) (boxes.getD j ⟨0, 0, 0, 0⟩) ≤ thr))

/-- Method `FaceDetector._nms`. -/
def nms (boxes : List Box4) (scores : List ℚ) (thr : ℚ) : List ℕ :=
  nmsLoop boxes thr (argsortDesc scores).length (argsortDesc scores)

/-- Detector-relevant settings (`ai_faces_*`). -/
structure DetectorSettings where
  enabled : Bool
  min_confidence : ℚ
  min_size : ℚ
  max_per_photo : ℕ
deriving DecidableEq, Repr

/-- A face as produced by `FaceDetector.detect`: box `(x, y, w, h)` in
image-relative coordinates, landmarks in absolute pixels, detection
confidence. -/
structure DetectedFace where
  box : ℚ × ℚ × ℚ × ℚ
  landmarks : List (ℚ × ℚ)
  confidence : ℚ
deriving DecidableEq, Repr

/-- Final loop of `detect` over the NMS survivors (already divided by the
letterbox scale): drop faces whose pixel width or height is below
`min_size`, convert the rest to image-relative coordinates, and break
after the append once `max_per_photo` faces are collected, exactly as the
source does. -/
def buildFaces (st : DetectorSettings) (h w : ℕ) :
    List Cand → ℕ → List DetectedFace
  | [], _ => []
  | c :: cs, nfaces =>
    let face_w := c.box.x2 - c.box.x1
    let face_h := c.box.y2 - c.box.y1
    if face_w < st.min_size ∨ face_h < st.min_size then
      buildFaces st h w cs nfaces
    else
      let f : DetectedFace :=
        ⟨(c.box.x1 / w, c.box.y1 / h, face_w / w, face_h / h), c.kps, c.score⟩
      if st.max_per_photo ≤ nfaces + 1 then [f]
      else f :: buildFaces st h w cs (nfaces + 1)

/-- Method `FaceDetector.detect` downstream of the opaque model run, for
an image of height `h` and width `w`: letterbox scale, per-stride decode
and score filter, concatenation, NMS at threshold 0.4, division by the
scale, and the final size filter / relative conversion / truncation. -/
def detect (st : DetectorSettings) (h w : ℕ)
    (out8 out16 out32 : StrideOut) : List DetectedFace :=
  if ¬ st.enabled then []
  else
    let scale : ℚ := min ((640 : ℚ) / h) ((640 : ℚ) / w)
    let cands := processStride st.min_confidence 640 8 out8
      ++ processStride st.min_confidence 640 16 out16
      ++ processStride st.min_confidence 640 32 out32
    let keep := nms (cands.map (·.box)) (cands.map (·.score)) (4 / 10)
    let kept := keep.map (fun i => cands.getD i ⟨⟨0, 0, 0, 0⟩, [], 0⟩)
    let scaled := kept.map (fun c =>
      ⟨⟨c.box.x1 / scale, c.box.y1 / scale, c.box.x2 / scale,
        c.box.y2 / scale⟩,
       c.kps.map (fun p => (p.1 / scale, p.2 / scale)), c.score⟩)
    buildFaces st h w scaled 0

/-- Stride output with no detections. -/
def emptyStrideOut : StrideOut := ⟨[], [], []⟩

/-- A single stride-8 detection whose left/top distances exceed the
anchor coordinates, decoding to a box protruding beyond the image. -/
def sampleStride8 : StrideOut := ⟨[9 / 10], [⟨2, 2, 10, 10⟩], [[]]⟩

/-- Detector settings at their configuration defaults. -/
def sampleSettings : DetectorSettings := ⟨true, 1 / 2, 30, 50⟩

theorem detect_sample_eval :
    detect sampleSettings 640 640 sampleStride8 emptyStrideOut emptyStrideOut
      = [⟨(-1 / 40, -1 / 40, 3 / 20, 3 / 20), [], 9 / 10⟩] := by
  norm_num [detect, sampleSettings, sampleStride8, emptyStrideOut,
    processStride, anchorCenter, distance2bbox, distance2kps, nms,
    argsortDesc, nmsLoop, buildFaces, List.insertionSort, List.orderedInsert,
    List.range_succ, List.filter, List.getD]

/-- Counterexample to claim C4: `detect` never clamps decoded boxes to
the image, so a model output whose left and top distances exceed the
anchor coordinates yields a face whose relative `x` (and `y`) is
negative, violating `0 ≤ x`. -/
theorem detect_box_not_clamped :
    ¬ (∀ f ∈ detect sampleSettings 640 640 sampleStride8 emptyStrideOut
          emptyStrideOut,
        0 ≤ f.box.1 ∧ 0 ≤ f.box.2.1 ∧
          0 < f.box.2.2.1 ∧ f.box.2.2.1 ≤ 1 - f.box.1 ∧
          0 < f.box.2.2.2 ∧ f.box.2.2.2 ≤ 1 - f.box.2.1) := by
  intro hall
  have h := hall ⟨(-1 / 40, -1 / 40, 3 / 20, 3 / 20), [], 9 / 10⟩
    (by rw [detect_sample_eval]; exact List.mem_singleton.2 rfl)
  exact absurd h.1 (by norm_num)

theorem buildFaces_pos (st : DetectorSettings) (h w : ℕ)
    (hms : 0 < st.min_size) (hw : 0 < w) (hh : 0 < h) :
    ∀ (cs : List Cand) (n : ℕ), ∀ f ∈ buildFaces st h w cs n,
      0 < f.box.2.2.1 ∧ 0 < f.box.2.2.2 := by
  intro cs
  induction cs with
  | nil =>
    intro n f hf
    simp [buildFaces] at hf
  | cons c rest ih =>
    intro n f hf
    simp only [buildFaces] at hf
    by_cases hsmall : c.box.x2 - c.box.x1 < st.min_size
        ∨ c.box.y2 - c.box.y1 < st.min_size
    · rw [if_pos hsmall] at hf
      exact ih n f hf
    · rw [if_neg hsmall] at hf
      push_neg at hsmall
      have hwp : (0 : ℚ) < (w : ℚ) := by exact_mod_cast hw
      have hhp : (0 : ℚ) < (h : ℚ) := by exact_mod_cast hh
      have hfw : 0 < (c.box.x2 - c.box.x1) / (w : ℚ) :=
        div_pos (lt_of_lt_of_le hms hsmall.1) hwp
      have hfh : 0 < (c.box.y2 - c.box.y1) / (h : ℚ) :=
        div_pos (lt_of_lt_of_le hms hsmall.2) hhp
      by_cases hmax : st.max_per_photo ≤ n + 1
      · rw [if_pos hmax] at hf
        rcases List.mem_singleton.1 hf with rfl
        exact ⟨hfw, hfh⟩
      · rw [if_neg hmax] at hf
        rcases List.mem_cons.1 hf with rfl | hf2
        · exact ⟨hfw, hfh⟩
        · exact ih (n + 1) f hf2

/-- Claim C4 as amended: every face `detect` returns has strictly
positive relative width and height (the `min_size` filter guarantees at
least `min_size/width` and `min_size/height`), but the box is not
clamped to the image: `x` and `y` may be negative, and `x + w`, `y + h`
may exceed 1. -/
theorem detect_box_positive_size (st : DetectorSettings) (h w : ℕ)
    (out8 out16 out32 : StrideOut) (hms : 0 < st.min_size)
    (hw : 0 < w) (hh : 0 < h) :
    ∀ f ∈ detect st h w out8 out16 out32,
      0 < f.box.2.2.1 ∧ 0 < f.box.2.2.2 := by
  intro f hf
  unfold detect at hf
  by_cases he : st.enabled = true
  · rw [if_neg (not_not_intro he)] at hf
    exact buildFaces_pos st h w hms hw hh _ 0 f hf
  · rw [if_pos he] at hf
    cases hf

/-- Witness for `detect_box_positive_size` at the concrete sample
detection. -/
theorem detect_box_positive_size_witness :
    0 < (DetectedFace.mk (-1 / 40, -1 / 40, 3 / 20, 3 / 20) []
        (9 / 10)).box.2.2.1 ∧
    0 < (DetectedFace.mk (-1 / 40, -1 / 40, 3 / 20, 3 / 20) []
        (9 / 10)).box.2.2.2 :=
  detect_box_positive_size sampleSettings 640 640 sampleStride8
    emptyStrideOut emptyStrideOut (by norm_num [sampleSettings])
    (by norm_num) (by norm_num)
    ⟨(-1 / 40, -1 / 40, 3 / 20, 3 / 20), [], 9 / 10⟩
    (by rw [detect_sample_eval]; exact List.mem_singleton.2 rfl)

/-! ## Date OCR parsing (`src/ai/app/processing/ocr.py`, claim C8)

The `DATE_PATTERNS` regexes are embedded through a small backtracking
matcher over character classes.  Every construct the patterns use is
covered: character classes, counted greedy repetition `{lo,hi}`, greedy
`+`, optional groups `(?:...)?` (which only occur at pattern tails, so a
single attempt of the group body followed by the skip branch is exact
Python-`re` behaviour), optional single classes `[...]?`, capture groups
(each is a single class repetition in these patterns) and the word
boundary `\b`.  `re.IGNORECASE` affects none of the classes (the only
letter class is already `[A-Za-z]`); the month-name lookup lowercases as
the source does. -/

/-- Python `\d` (ASCII inputs). -/
def isDigitCh (c : Char) : Bool := c.isDigit

/-- Python `\s` (ASCII whitespace). -/
def isSpaceCh (c : Char) : Bool :=
  c == ' ' || c == '\t' || c == '\n' || c == '\r' ||
    c == '\x0b' || c == '\x0c'

/-- Class `[./\-]`. -/
def isSepDot (c : Char) : Bool := c == '.' || c == '/' || c == '-'

/-- Class `[./\-'\s]`. -/
def isSepBroad (c : Char) : Bool := isSepDot c || c == '\'' || isSpaceCh c

/-- Class `[./\-\s]`. -/
def isSepDotSpace (c : Char) : Bool := isSepDot c || isSpaceCh c

/-- Class `[A-Za-z]`. -/
def isAlphaCh (c : Char) : Bool := c.isAlpha

/-- Class `[,\s]`. -/
def isCommaSpace (c : Char) : Bool := c == ',' || isSpaceCh c

/-- Class `['\"]`. -/
def isQuote (c : Char) : Bool := c == '\'' || c == '"'

/-- Python `\w` (ASCII). -/
def isWordChar (c : Char) : Bool := c.isAlpha || c.isDigit || c == '_'

/-- Python `\b`: exactly one side of the position holds a word
character (string edges count as non-word). -/
def wordBoundary (prev : Option Char) (s : List Char) : Bool :=
  (match prev with | some c => isWordChar c | none => false)
    != (match s with | c :: _ => isWordChar c | [] => false)

/-- Tokens of the regex interpreter. -/
inductive RTok where
  | lit (p : Char → Bool)
  | rep (p : Char → Bool) (lo hi : ℕ) (cap : Bool)
  | plus (p : Char → Bool) (cap : Bool)
  | opt (ts : List RTok)
  | bnd

/-- Backtracking matcher for a token sequence at the start of `s`;
`prev` is the character before the match position (for `\b`).  Returns
the captured groups, the unconsumed suffix and its preceding character.
Greedy like Python `re`: a repetition tries the largest count first and
backtracks count by count (encoded by shrinking `hi`); `+` desugars to
`{1, |s|}`.  The fuel only bounds the backtracking chain; callers pass
fuel exceeding the worst case, and no theorem depends on its
adequacy. -/
def reMatch : ℕ → List RTok → List Char → Option Char →
    Option (List String × List Char × Option Char)
  | 0, _, _, _ => none
  | _ + 1, [], s, prev => some ([], s, prev)
  | fuel + 1, t :: ts, s, prev =>
    match t with
    | .lit p =>
      match s with
      | [] => none
      | c :: cs => if p c then reMatch fuel ts cs (some c) else none
    | .rep p lo hi cap =>
      let k := min hi s.length
      if k < lo then none
      else if (s.take k).all p then
        match reMatch fuel ts (s.drop k)
            (if k = 0 then prev else (s.take k).getLast?) with
        | some (g, r, pv) =>
          some ((if cap then [String.mk (s.take k)] else []) ++ g, r, pv)
        | none =>
          if k = 0 then none
          else reMatch fuel (.rep p lo (k - 1) cap :: ts) s prev
      else
        if k = 0 then none
        else reMatch fuel (.rep p lo (k - 1) cap :: ts) s prev
    | .plus p cap => reMatch fuel (.rep p 1 s.length cap :: ts) s prev
    | .opt ins =>
      match reMatch fuel ins s prev with
      | some (g1, r1, pv1) =>
        match reMatch fuel ts r1 pv1 with
        | some (g2, r2, pv2) => some (g1 ++ g2, r2, pv2)
        | none => reMatch fuel ts s prev
      | none => reMatch fuel ts s prev
    | .bnd => if wordBoundary prev s then reMatch fuel ts s prev else none

/-- Fuel bound for `reMatch`: far above the deepest call chain any
`DATE_PATTERNS` entry produces on `s` (at most 12 tokens per pattern,
each repetition chains at most `hi + 1 ≤ s.length + 1` attempts). -/
def reFuel (s : List Char) : ℕ := 16 * s.length + 256

/-- Python `re.search`: try the pattern at every start position,
leftmost first. -/
def reSearch (toks : List RTok) : Option Char → List Char →
    Option (List String)
  | prev, s =>
    match reMatch (reFuel s) toks s prev with
    | some (g, _, _) => some g
    | none =>
      match s with
      | [] => none
      | c :: cs => reSearch toks (some c) cs

/-- The optional time tail `(?:\s+\d{1,2}:\d{2}(?::\d{2})?)?`. -/
def timeTailSec : RTok :=
  .opt [.plus isSpaceCh false, .rep isDigitCh 1 2 false, .lit (· == ':'),
        .rep isDigitCh 2 2 false,
        .opt [.lit (· == ':'), .rep isDigitCh 2 2 false]]

/-- The optional time tail `(?:\s+\d{1,2}:\d{2})?`. -/
def timeTail : RTok :=
  .opt [.plus isSpaceCh false, .rep isDigitCh 1 2 false, .lit (· == ':'),
        .rep isDigitCh 2 2 false]

/-- Pattern 1 of `DATE_PATTERNS`:
`(\d{4})[./\-](\d{1,2})[./\-](\d{1,2})(?:\s+\d{1,2}:\d{2}(?::\d{2})?)?`. -/
def ymd4Toks : List RTok :=
  [.rep isDigitCh 4 4 true, .lit isSepDot, .rep isDigitCh 1 2 true,
   .lit isSepDot, .rep isDigitCh 1 2 true, timeTailSec]

/-- The ordered `DATE_PATTERNS` table of `ocr.py`, each regex compiled
to a token sequence, with its format tag. -/
def DATE_PATTERNS : List (List RTok × String) :=
  [(ymd4Toks, "ymd4"),
   ([.rep isDigitCh 1 2 true, .lit isSepBroad, .rep isDigitCh 1 2 true,
     .lit isSepBroad, .rep isDigitCh 4 4 true, timeTailSec], "dmy4"),
   ([.rep isDigitCh 1 2 true, .lit isSepDot, .rep isDigitCh 1 2 true,
     .lit isSepDot, .rep isDigitCh 4 4 true], "mdy4"),
   ([.rep isQuote 0 1 false, .rep isDigitCh 2 2 true, .lit isSepDotSpace,
     .rep isDigitCh 1 2 true, .lit isSepDotSpace, .rep isDigitCh 1 2 true,
     timeTail], "ymd2"),
   ([.rep isDigitCh 1 2 true, .lit isSepBroad, .rep isDigitCh 1 2 true,
     .lit isSepBroad, .rep isDigitCh 2 2 true, timeTail], "dmy2"),
   ([.bnd, .rep isDigitCh 4 4 true, .rep isDigitCh 2 2 true,
     .rep isDigitCh 2 2 true, .bnd], "ymd4_compact"),
   ([.bnd, .rep isDigitCh 2 2 true, .rep isDigitCh 2 2 true,
     .rep isDigitCh 4 4 true, .bnd], "dmy4_compact"),
   ([.bnd, .rep isDigitCh 2 2 true, .rep isDigitCh 2 2 true,
     .rep isDigitCh 2 2 true, .bnd], "dmy2_compact"),
   ([.rep isDigitCh 1 2 true, .plus isSpaceCh false, .plus isAlphaCh true,
     .plus isCommaSpace false, .rep isQuote 0 1 false,
     .rep isDigitCh 2 4 true], "dmy_name_full"),
   ([.plus isAlphaCh true, .plus isSpaceCh false, .rep isDigitCh 1 2 true,
     .plus isCommaSpace false, .rep isQuote 0 1 false,
     .rep isDigitCh 2 4 true], "mdy_name_full"),
   ([.rep isDigitCh 1 2 true, .plus isSpaceCh false, .rep isAlphaCh 3 3 true,
     .plus isCommaSpace false, .rep isQuote 0 1 false,
     .rep isDigitCh 2 4 true], "dmy_name"),
   ([.rep isAlphaCh 3 3 true, .plus isSpaceCh false, .rep isDigitCh 1 2 true,
     .plus isCommaSpace false, .rep isQuote 0 1 false,
     .rep isDigitCh 2 4 true], "mdy_name")]

/-- The `MONTH_NAMES` table of `ocr.py`. -/
def MONTH_NAMES : List (String × ℕ) :=
  [("jan", 1), ("feb", 2), ("mar", 3), ("apr", 4), ("may", 5), ("jun", 6),
   ("jul", 7), ("aug", 8), ("sep", 9), ("oct", 10), ("nov", 11), ("dec", 12),
   ("january", 1), ("february", 2), ("march", 3), ("april", 4), ("june", 6),
   ("july", 7), ("august", 8), ("september", 9), ("october", 10),
   ("november", 11), ("december", 12),
   ("янв", 1), ("фев", 2), ("мар", 3), ("апр", 4), ("мая", 5), ("май", 5),
   ("июн", 6), ("июл", 7), ("авг", 8), ("сен", 9), ("окт", 10), ("ноя", 11),
   ("дек", 12)]

/-- Dictionary lookup `MONTH_NAMES.get(...)`. -/
def monthLookup (sStr : String) : Option ℕ :=
  (MONTH_NAMES.find? (fun p => p.1 == sStr)).map (·.2)

/-- Python `str.lower()` (ASCII captures). -/
def toLowerStr (sStr : String) : String := String.mk (sStr.data.map Char.toLower)

/-- Python `int()` on a captured digit string. -/
def digitsToNat (sStr : String) : ℕ :=
  sStr.data.foldl (fun acc c => acc * 10 + (c.toNat - 48)) 0

/-- A calendar date as produced by `datetime.date`. -/
structure PyDate where
  year : ℕ
  month : ℕ
  day : ℕ
deriving DecidableEq, Repr

/-- Gregorian leap-year rule (`datetime.date`). -/
def isLeapYear (y : ℕ) : Bool :=
  (y % 4 == 0 && y % 100 != 0) || y % 400 == 0

/-- Days in a month (`datetime.date` validation). -/
def daysInMonth (y m : ℕ) : ℕ :=
  if m == 2 then (if isLeapYear y then 29 else 28)
  else if m == 4 || m == 6 || m == 9 || m == 11 then 30
  else 31

/-- The `date(y, m, d)` constructor: `some` iff the triple is a real
calendar date (a `ValueError` becomes `none`, which `_try_parse_date`
turns into `continue`). -/
def mkDate (y m d : ℕ) : Option PyDate :=
  if 1 ≤ y ∧ y ≤ 9999 ∧ 1 ≤ m ∧ m ≤ 12 ∧ 1 ≤ d ∧ d ≤ daysInMonth y m
  then some ⟨y, m, d⟩ else none

/-- Method `OCRProcessor._convert_year`. -/
def convert_year (y : ℕ) : ℕ :=
  if y < 100 then (if y < 30 then 2000 + y else 1900 + y) else y

/-- The per-format extraction of `_try_parse_date`: map the captured
groups to `(d, m, y)`, applying `_convert_year` and the month-name
lookup (with its 3-letter-prefix fallback) exactly where the source
does; `none` where the source hits `continue`. -/
def groupsToDate (fmt : String) (g : List String) : Option (ℕ × ℕ × ℕ) :=
  if fmt == "ymd4" ∨ fmt == "ymd4_compact" then
    some (digitsToNat (g.getD 2 ""), digitsToNat (g.getD 1 ""),
      digitsToNat (g.getD 0 ""))
  else if fmt == "dmy4" ∨ fmt == "dmy4_compact" then
    some (digitsToNat (g.getD 0 ""), digitsToNat (g.getD 1 ""),
      digitsToNat (g.getD 2 ""))
  else if fmt == "mdy4" then
    some (digitsToNat (g.getD 1 ""), digitsToNat (g.getD 0 ""),
      digitsToNat (g.getD 2 ""))
  else if fmt == "ymd2" then
    some (digitsToNat (g.getD 2 ""), digitsToNat (g.getD 1 ""),
      convert_year (digitsToNat (g.getD 0 "")))
  else if fmt == "dmy2" ∨ fmt == "dmy2_compact" then
    some (digitsToNat (g.getD 0 ""), digitsToNat (g.getD 1 ""),
      convert_year (digitsToNat (g.getD 2 "")))
  else if fmt == "dmy_name" ∨ fmt == "dmy_name_full" then
    match monthLookup (toLowerStr (g.getD 1 "")) with
    | some m => some (digitsToNat (g.getD 0 ""), m,
        convert_year (digitsToNat (g.getD 2 "")))
    | none =>
      match monthLookup ((toLowerStr (g.getD 1 "")).take 3) with
      | some m => some (digitsToNat (g.getD 0 ""), m,
          convert_year (digitsToNat (g.getD 2 "")))
      | none => none
  else if fmt == "mdy_name" ∨ fmt == "mdy_name_full" then
    match monthLookup (toLowerStr (g.getD 0 "")) with
    | some m => some (digitsToNat (g.getD 1 ""), m,
        convert_year (digitsToNat (g.getD 2 "")))
    | none =>
      match monthLookup ((toLowerStr (g.getD 0 "")).take 3) with
      | some m => some (digitsToNat (g.getD 1 ""), m,
          convert_year (digitsToNat (g.getD 2 "")))
      | none => none
  else none

/-- One iteration of the pattern loop of `_try_parse_date`: search,
extract, Python truthiness check (`if d and m and y`), range check,
calendar construction. -/
def tryPattern (toks : List RTok) (fmt : String) (s : List Char) :
    Option PyDate :=
  match reSearch toks none s with
  | none => none
  | some g =>
    match groupsToDate fmt g with
    | none => none
    | some (d, m, y) =>
      if d ≠ 0 ∧ m ≠ 0 ∧ y ≠ 0 then
        if 1 ≤ d ∧ d ≤ 31 ∧ 1 ≤ m ∧ m ≤ 12 ∧ 1900 ≤ y ∧ y ≤ 2100 then
          mkDate y m d
        else none
      else none

/-- Python `str.strip()`. -/
def pyStrip (s : List Char) : List Char :=
  ((s.dropWhile isSpaceCh).reverse.dropWhile isSpaceCh).reverse

/-- Method `OCRProcessor._try_parse_date`: strip, then try the
`DATE_PATTERNS` in their listed order, returning the first pattern's
successfully parsed and validated date. -/
def try_parse_date (sStr : String) : Option PyDate :=
  DATE_PATTERNS.findSome? (fun pf => tryPattern pf.1 pf.2 (pyStrip sStr.data))

/-- Method `OCRProcessor._fix_ocr_errors` (every replacement is a single
character, so the chain of `str.replace` calls is one character map). -/
def fix_ocr_errors (sStr : String) : String :=
  String.mk (sStr.data.map (fun c =>
    if c == 'O' || c == 'o' then '0'
    else if c == 'l' || c == 'I' || c == '|' then '1'
    else if c == 'S' || c == 's' then '5'
    else if c == 'B' then '8'
    else if c == 'Z' || c == 'z' then '2'
    else c))

/-- Method `OCRProcessor._parse_date`: try the original text first, then
the OCR-error-substituted text. -/
def parse_date (sStr : String) : Option PyDate :=
  match try_parse_date sStr with
  | some d => some d
  | none => try_parse_date (fix_ocr_errors sStr)

/-- Claim C8.  The parser tries `DATE_PATTERNS` in their listed order:
whenever the first, 4-digit-year ISO pattern succeeds on a text, its
date is the parser's result, before any 2-digit-year pattern is
consulted; in particular "2020-01-02" parses to 2020-01-02. -/
theorem date_pattern_precedence :
    parse_date "2020-01-02" = some ⟨2020, 1, 2⟩ ∧
    ∀ (sStr : String) (d : PyDate),
      tryPattern ymd4Toks "ymd4" (pyStrip sStr.data) = some d →
      try_parse_date sStr = some d := by
  constructor
  · decide
  · intro sStr d h
    unfold try_parse_date DATE_PATTERNS
    rw [List.findSome?_cons]
    rw [h]

/-- Witness for `date_pattern_precedence`: the first pattern's success
on "2020-01-02" decides the result. -/
theorem date_pattern_precedence_witness :
    try_parse_date "2020-01-02" = some ⟨2020, 1, 2⟩ :=
  date_pattern_precedence.2 "2020-01-02" ⟨2020, 1, 2⟩ (by decide)

end Imgable
